import Mathlib

/-!
Verification of `lpd8_voicemeeterish.py`: a bridge from MIDI control-change
messages to PipeWire (`wpctl`) volume commands.

The program is embedded shallowly:
* text is `List Char` (Python `str`);
* the external `wpctl status` output and the MIDI port list are explicit
  parameters (in the source they arrive via `subprocess` / `mido`);
* Python `dict` is an insertion-ordered association list whose insert
  overwrites the value of an existing key in place;
* fallible operations (`raise`, `sys.exit(1)`) return `Except` / a sum type.
-/

/-! ### Character classes (ASCII fragment of Python `\s`, `\d`, `str.lower`) -/

/-- Python regex `\s` on the ASCII range: space, tab, newline, carriage
return, vertical tab, form feed.  (The scraped `wpctl` text is ASCII; the
Unicode extension of `\s` is outside the modelled domain.) -/
def isWS (c : Char) : Bool :=
  c = ' ' || c = '\t' || c = '\n' || c = '\r' || c = '\x0b' || c = '\x0c'

/-- Python regex `\d` on the ASCII range: `'0'`–`'9'`. -/
def isDigit (c : Char) : Bool :=
  '0' ≤ c && c ≤ '9'

/-- ASCII `str.lower`: map `'A'`–`'Z'` to `'a'`–`'z'`, leave the rest. -/
def lowerChar (c : Char) : Char :=
  if 'A' ≤ c && c ≤ 'Z' then Char.ofNat (c.toNat + 32) else c

/-- `str.lower` over a whole string. -/
def lowerL (s : List Char) : List Char :=
  s.map lowerChar

/-- Drop leading whitespace characters. -/
def dropWS (s : List Char) : List Char :=
  s.dropWhile isWS

/-- Python `str.strip()`: remove leading and trailing whitespace. -/
def stripL (s : List Char) : List Char :=
  dropWS ((dropWS s.reverse).reverse)

/-- Python `str.startswith(pre)` over lists: `pre` is an initial segment. -/
def startsWithL (s : List Char) (pre : List Char) : Bool :=
  match s, pre with
  | _, [] => true
  | [], _ :: _ => false
  | c :: s, d :: pre => c = d && startsWithL s pre

/-- Python `x in y` substring test: scan for an occurrence of `needle`
starting at each position of `hay`. -/
def containsSub (hay : List Char) (needle : List Char) : Bool :=
  startsWithL hay needle ||
    match hay with
    | [] => false
    | _ :: rest => containsSub rest needle

/-- Value of a nonempty ASCII digit string (Python `int(...)` on the digits
captured by `(\d+)`). -/
def digitsToNat (ds : List Char) : Nat :=
  ds.foldl (fun n c => n * 10 + (c.toNat - '0'.toNat)) 0

/-- Python `str(n)` / `f"{n}"` for a natural number. -/
def natStr (n : Nat) : List Char :=
  Nat.toDigits 10 n

/-! ### `set_volume` (source lines 60–62)

```python
def set_volume(node_id: int, value_0_127: int):
    pct = int(round((value_0_127 / 127.0) * 100))
    sh(["wpctl", "set-volume", str(node_id), f"{pct}%"])
```

For every integer `value_0_127` in `[0, 127]` the double-precision value of
`(value_0_127 / 127.0) * 100` is never an exact half-integer and rounds to
the integer nearest to the exact rational `value_0_127 * 100 / 127`
(`100 * v / 127` has fractional part `1/2` only when `127 ∣ 200 * v`, i.e.
`v ∈ {0, 127}`, where it is an exact integer); rounding to nearest with no
ties is `⌊(200 * v + 127) / 254⌋`, an exact natural-number computation. -/

/-- The percentage computed by `set_volume`:
`int(round((value_0_127 / 127.0) * 100))`. -/
def set_volume_pct (value_0_127 : Nat) : Nat :=
  (200 * value_0_127 + 127) / 254

/-- The argument vector `set_volume` hands to `subprocess.check_output`:
`["wpctl", "set-volume", str(node_id), f"{pct}%"]`. -/
def set_volume_cmd (node_id : Nat) (value_0_127 : Nat) : List (List Char) :=
  ["wpctl".data, "set-volume".data, natStr node_id,
    natStr (set_volume_pct value_0_127) ++ "%".data]

example : set_volume_pct 0 = 0 := by decide
example : set_volume_pct 64 = 50 := by decide
example : set_volume_pct 127 = 100 := by decide
example : set_volume_pct 100 = 79 := by decide
/-- The integer-arithmetic percentage agrees with rounding the exact
rational `v / 127 * 100` to the nearest integer, for every `v`. -/
theorem set_volume_pct_eq_round (v : Nat) :
    (set_volume_pct v : ℤ) = round ((v : ℚ) / 127 * 100) := by
  rw [round_eq]
  have h : (v : ℚ) / 127 * 100 + 1 / 2 = ((200 * v + 127 : ℕ) : ℤ) / ((254 : ℕ) : ℚ) := by
    push_cast
    ring
  rw [h, Rat.floor_intCast_div_natCast]
  unfold set_volume_pct
  omega

/-! ### The sink-line pattern (source line 33)

```python
line_re = re.compile(r"^\s*(\*?\s*)?(\d+)\.\s+(.+?)\s+\[vol:")
```

`re.match` anchors at the start of the line.  The leading `\s*`, the optional
`\*?\s*` group and `(\d+)` are deterministic (whitespace, `'*'` and digits are
pairwise disjoint, so backtracking between them never changes the outcome).
After the literal `'.'`, the engine consumes the greedy `\s+` maximally and
then, for the lazy `(.+?)`, extends the name one character at a time until
the rest of the pattern (`\s+\[vol:` — a nonempty whitespace run whose end is
immediately followed by the literal `[vol:`) matches; on overall failure the
greedy `\s+` gives characters back one at a time and the lazy search restarts.
`searchName` below replays exactly that strategy. -/

/-- Does the rest of the pattern, `\s+\[vol:`, match at the start of `l`?
That is: `l` begins with a whitespace character and the maximal whitespace
run at the front of `l` is immediately followed by the literal `[vol:`. -/
def tailMatch (l : List Char) : Bool :=
  match l with
  | [] => false
  | c :: _ => isWS c && startsWithL (dropWS l) "[vol:".data

/-- Lazy `(.+?)`: the shortest nonempty prefix of `l` whose remainder
satisfies `tailMatch`; `none` when no prefix works. -/
def splitName (l : List Char) : Option (List Char) :=
  match l with
  | [] => none
  | c :: rest =>
    if tailMatch rest then some [c]
    else (splitName rest).map (fun nm => c :: nm)

/-- Greedy `\s+` with backtracking: try the lazy name search after consuming
`s` whitespace characters, for `s` from the maximal run length down to 1. -/
def searchName (l : List Char) : Nat → Option (List Char)
  | 0 => none
  | s + 1 =>
    match splitName (l.drop (s + 1)) with
    | some nm => some nm
    | none => searchName l s

/-- `line_re.match(line)`, returning `(int(m.group(2)), m.group(3))` on a
match: the sink id and the (unstripped) name capture. -/
def line_re_match (line : List Char) : Option (Nat × List Char) :=
  let l1 := dropWS line
  let l2 := match l1 with
            | '*' :: r => dropWS r
            | _ => l1
  let digits := l2.takeWhile isDigit
  match l2.dropWhile isDigit with
  | '.' :: l4 =>
    if digits = [] then none
    else if (l4.takeWhile isWS).length = 0 then none
    else
      match searchName l4 (l4.takeWhile isWS).length with
      | some nm => some (digitsToNat digits, nm)
      | none => none
  | _ => none

/-! ### `get_sink_ids_by_description` (source lines 23–51) -/

/-- Python `str.splitlines` worker: split at `\n`, `\r\n`, `\r`, `\v`, `\f`
and the ASCII separators `\x1c`–`\x1e` (the Unicode-only separators are
outside the modelled domain). -/
def splitlinesAux : List Char → List Char → List (List Char)
  | [], acc => [acc.reverse]
  | '\r' :: '\n' :: rest, acc => acc.reverse :: splitlinesAux rest []
  | c :: rest, acc =>
    if c = '\n' || c = '\r' || c = '\x0b' || c = '\x0c' ||
        c = '\x1c' || c = '\x1d' || c = '\x1e' then
      acc.reverse :: splitlinesAux rest []
    else
      splitlinesAux rest (c :: acc)

/-- Python `str.splitlines`: no trailing empty line for a trailing
terminator, and the empty string yields no lines. -/
def splitlines (s : List Char) : List (List Char) :=
  let r := splitlinesAux s []
  if r.getLast? = some ([] : List Char) then r.dropLast else r

/-- Python `dict` assignment `d[k] = v`: overwrite in place when the key is
present, append otherwise (insertion order is preserved). -/
def dictInsert (d : List (List Char × Nat)) (k : List Char) (v : Nat) :
    List (List Char × Nat) :=
  if d.any (fun p => p.1 == k) then
    d.map (fun p => if p.1 == k then (k, v) else p)
  else d ++ [(k, v)]

/-- Python `d[k]` / `k in d` on a string-keyed dict, as an `Option`. -/
def dictLookup (d : List (List Char × Nat)) (k : List Char) : Option Nat :=
  match d with
  | [] => none
  | p :: rest => if p.1 == k then some p.2 else dictLookup rest k

/-- The scan loop of `get_sink_ids_by_description` (source lines 35–49):
a `"Sinks:"` header line (after `strip`) turns the section flag on and is
skipped; once inside the section a `"Sources:"` header line stops the scan;
outside the section every line is skipped; inside it, each line matching
`line_re` stores `out[m.group(3).strip()] = int(m.group(2))`. -/
def sinkScan : List (List Char) → Bool → List (List Char × Nat) →
    List (List Char × Nat)
  | [], _, out => out
  | line :: rest, sinks_section, out =>
    if startsWithL (stripL line) "Sinks:".data then sinkScan rest true out
    else if sinks_section && startsWithL (stripL line) "Sources:".data then out
    else if !sinks_section then sinkScan rest sinks_section out
    else
      match line_re_match line with
      | none => sinkScan rest sinks_section out
      | some (sink_id, name) =>
        sinkScan rest sinks_section (dictInsert out (stripL name) sink_id)

/-- `get_sink_ids_by_description()`, with the text of `wpctl status` as an
explicit parameter (the source obtains it via `sh(["wpctl", "status"])`). -/
def get_sink_ids_by_description (txt : List Char) : List (List Char × Nat) :=
  sinkScan (splitlines txt) false []

/-! ### `find_midi_port` (source lines 53–58) -/

/-- The configured port hint (source line 9). -/
def MIDI_PORT_HINT : List Char := "LPD8".data

/-- The `for p in ports` loop of `find_midi_port`: return the first port
whose lowercased name contains the lowercased hint as a substring. -/
def findPortLoop (hint : List Char) : List (List Char) → Option (List Char)
  | [] => none
  | p :: rest =>
    if containsSub (lowerL p) (lowerL hint) then some p
    else findPortLoop hint rest

/-- `find_midi_port()`, with the hint and the list returned by
`mido.get_input_names()` as explicit parameters.  The `RuntimeError` is the
`Except.error` case; its message interpolates the full port list, which the
error value carries. -/
def find_midi_port (hint : List Char) (ports : List (List Char)) :
    Except (List (List Char)) (List Char) :=
  match findPortLoop hint ports with
  | some p => Except.ok p
  | none => Except.error ports

/-! ### `main` (source lines 64–88) -/

/-- The configured controller→bus-name mapping (source lines 10–14), in
insertion order. -/
def CC_TO_BUS : List (Nat × List Char) :=
  [(1, "VM-GAME".data), (2, "VM-CHAT".data), (3, "VM-MUSIC".data)]

/-- Python `bus_ids[cc]` lookup on the integer-keyed dict. -/
def busLookup (d : List (Nat × Nat)) (cc : Nat) : Option Nat :=
  match d with
  | [] => none
  | p :: rest => if p.1 == cc then some p.2 else busLookup rest cc

/-- The `for cc, bus in CC_TO_BUS.items()` loop of `main` (source lines
68–72): resolve each configured bus name against the sink table, failing at
the first name that is absent (`sys.exit(1)`); the error carries that name. -/
def buildBusIds (sinks : List (List Char × Nat)) :
    List (Nat × List Char) → Except (List Char) (List (Nat × Nat))
  | [] => Except.ok []
  | (cc, bus) :: rest =>
    match dictLookup sinks bus with
    | none => Except.error bus
    | some i => (buildBusIds sinks rest).map (fun r => (cc, i) :: r)

/-- Outcome of the setup phase of `main`, before the message loop. -/
inductive SetupResult where
  /-- `sys.exit(1)` (source line 71): a configured name is missing from the
  sink table.  Carries the missing name and `list(sinks.keys())[:12]`, the
  sink names printed in the diagnostic (source line 70). -/
  | sinkFail (missing : List Char) (known : List (List Char)) : SetupResult
  /-- The `RuntimeError` of `find_midi_port`, carrying the port list that
  its message enumerates. -/
  | portFail (ports : List (List Char)) : SetupResult
  /-- Setup succeeded: the bus-id table and the port `main` opens. -/
  | ok (bus_ids : List (Nat × Nat)) (port : List Char) : SetupResult
deriving DecidableEq

/-- The setup phase of `main` (source lines 64–76): scrape the sink table,
resolve every configured bus name (exiting on the first failure, before any
MIDI call), then locate the MIDI port. -/
def mainSetup (txt : List Char) (ports : List (List Char)) : SetupResult :=
  let sinks := get_sink_ids_by_description txt
  match buildBusIds sinks CC_TO_BUS with
  | Except.error bus => SetupResult.sinkFail bus ((sinks.map Prod.fst).take 12)
  | Except.ok bus_ids =>
    match find_midi_port MIDI_PORT_HINT ports with
    | Except.error ps => SetupResult.portFail ps
    | Except.ok p => SetupResult.ok bus_ids p

/-- A MIDI message as the loop reads it: `msg.type`, `msg.control`,
`msg.value`. -/
structure MidiMsg where
  type : List Char
  control : Nat
  value : Nat

/-- One iteration of the message loop (source lines 82–88): the external
command issued for the message, if any.  `None` models “no `sh` call”. -/
def handle_msg (bus_ids : List (Nat × Nat)) (msg : MidiMsg) :
    Option (List (List Char)) :=
  if msg.type == "control_change".data then
    match busLookup bus_ids msg.control with
    | some node_id => some (set_volume_cmd node_id msg.value)
    | none => none
  else none


/-! ### Claims -/

/-- C1: for every input value `v` in `[0,127]`, `set_volume` computes the
percentage as `round(v / 127 * 100)`; in particular `v = 0` yields `0`,
`v = 64` yields `50`, `v = 127` yields `100`, and the result lies in
`[0, 100]`. -/
theorem C1_set_volume_percentage (v : Nat) (hv : v ≤ 127) :
    (set_volume_pct v : ℤ) = round ((v : ℚ) / 127 * 100) ∧
    set_volume_pct 0 = 0 ∧ set_volume_pct 64 = 50 ∧ set_volume_pct 127 = 100 ∧
    set_volume_pct v ≤ 100 := by
  refine ⟨set_volume_pct_eq_round v, by decide, by decide, by decide, ?_⟩
  unfold set_volume_pct
  have h : 200 * v + 127 ≤ 25527 := by omega
  exact le_trans (Nat.div_le_div_right h) (by decide)

/-- Witness for C1 at `v = 64`. -/
theorem C1_witness :
    (64 : Nat) ≤ 127 ∧
    ((set_volume_pct 64 : ℤ) = round ((64 : ℚ) / 127 * 100) ∧
     set_volume_pct 0 = 0 ∧ set_volume_pct 64 = 50 ∧ set_volume_pct 127 = 100 ∧
     set_volume_pct 64 ≤ 100) :=
  ⟨by decide, C1_set_volume_percentage 64 (by decide)⟩

/-- C10: the percentage computed by `set_volume` is monotone non-decreasing
on `[0, 127]`. -/
theorem C10_set_volume_monotone (v1 v2 : Nat) (_h1 : v1 ≤ 127) (_h2 : v2 ≤ 127)
    (h : v1 ≤ v2) : set_volume_pct v1 ≤ set_volume_pct v2 := by
  unfold set_volume_pct
  exact Nat.div_le_div_right (by omega)

/-- Witness for C10 at `v1 = 3`, `v2 = 100`. -/
theorem C10_witness :
    (3 : Nat) ≤ 127 ∧ (100 : Nat) ≤ 127 ∧ (3 : Nat) ≤ 100 ∧
    set_volume_pct 3 ≤ set_volume_pct 100 :=
  ⟨by decide, by decide, by decide,
    C10_set_volume_monotone 3 100 (by decide) (by decide) (by decide)⟩

/-- The synthetic `wpctl status` text of the sink-table parsing scenario:
a `Sinks:` section with the two sink lines, a `Sources:` marker, and source
lines after it (one of which would match `line_re` and reuse a sink name,
so the theorem also shows the post-marker lines contribute nothing). -/
def statusDemo : List Char :=
  ("Audio\nSinks:\n   97. VM-GAME [vol: 1.00]\n*  103. Astro A50 Game [vol: 1.00]\nSources:\n   55. VM-GAME [vol: 1.00]\n   60. Mic [vol: 1.00]\n").data

/-- C2: on the synthetic status text, the sink resolver returns exactly
`{"VM-GAME": 97, "Astro A50 Game": 103}`; the matching lines after the
`Sources:` marker (including one that repeats the name `VM-GAME` with id
`55`) contribute no entry. -/
theorem C2_sink_table_parsing :
    get_sink_ids_by_description statusDemo =
      [("VM-GAME".data, 97), ("Astro A50 Game".data, 103)] := by decide

/-- C8: sink resolution and port location are deterministic and stateless —
for a fixed status text and fixed port list, any number `n` of repeated
calls yields the identical mapping (resp. port result) every time. -/
theorem C8_deterministic (txt hint : List Char) (ports : List (List Char))
    (n : Nat) :
    (List.replicate n txt).map get_sink_ids_by_description =
      List.replicate n (get_sink_ids_by_description txt) ∧
    (List.replicate n ports).map (find_midi_port hint) =
      List.replicate n (find_midi_port hint ports) :=
  ⟨List.map_replicate .., List.map_replicate ..⟩

/-- C5: when a control-change message with controller 1 and value 100
arrives and controller 1 is mapped to node id 97, the loop invokes the
volume-set command with positional arguments `"97"` and `"79%"`
(`round(100/127*100) = 79`): the node id and the percentage as decimal
strings. -/
theorem C5_end_to_end (bus_ids : List (Nat × Nat))
    (h : busLookup bus_ids 1 = some 97) :
    set_volume_pct 100 = 79 ∧
    handle_msg bus_ids { type := "control_change".data, control := 1, value := 100 } =
      some ["wpctl".data, "set-volume".data, "97".data, "79%".data] := by
  refine ⟨by decide, ?_⟩
  simp only [handle_msg]
  rw [show (("control_change".data == "control_change".data) = true) from rfl]
  simp only [if_true]
  rw [h]
  rfl

/-- Witness for C5 with the bus table `{1: 97}`. -/
theorem C5_witness :
    busLookup [(1, 97)] 1 = some 97 ∧
    (set_volume_pct 100 = 79 ∧
     handle_msg [(1, 97)] { type := "control_change".data, control := 1, value := 100 } =
       some ["wpctl".data, "set-volume".data, "97".data, "79%".data]) :=
  ⟨by decide, C5_end_to_end [(1, 97)] (by decide)⟩

/-- C6: a message that is not a control-change, or whose controller number
is not a key of the bus table, triggers no external volume-set command. -/
theorem C6_non_mapped_ignored (bus_ids : List (Nat × Nat)) (msg : MidiMsg)
    (h : msg.type ≠ "control_change".data ∨ busLookup bus_ids msg.control = none) :
    handle_msg bus_ids msg = none := by
  unfold handle_msg
  cases hb : (msg.type == "control_change".data) with
  | false => simp [hb]
  | true =>
    rcases h with h | h
    · exact absurd (by simpa using hb) h
    · simp [hb, h]

/-- Witness for C6: controller 5 under a bus table with keys `{1, 2, 3}`. -/
theorem C6_witness :
    ((({ type := "control_change".data, control := 5, value := 10 } : MidiMsg).type ≠
        "control_change".data ∨
      busLookup [(1, 97), (2, 98), (3, 99)]
        ({ type := "control_change".data, control := 5, value := 10 } : MidiMsg).control =
        none) ∧
     handle_msg [(1, 97), (2, 98), (3, 99)]
       { type := "control_change".data, control := 5, value := 10 } = none) :=
  ⟨Or.inr (by decide),
   C6_non_mapped_ignored [(1, 97), (2, 98), (3, 99)]
     { type := "control_change".data, control := 5, value := 10 } (Or.inr (by decide))⟩

/-- `startsWithL` detects exactly the initial-segment decompositions. -/
theorem startsWithL_iff (pre s : List Char) :
    startsWithL s pre = true ↔ ∃ rest, s = pre ++ rest := by
  induction pre generalizing s with
  | nil => exact ⟨fun _ => ⟨s, rfl⟩, fun _ => by cases s <;> rfl⟩
  | cons d pre ih =>
    cases s with
    | nil => simp [startsWithL]
    | cons c s =>
      simp only [startsWithL, Bool.and_eq_true, decide_eq_true_eq, ih,
        List.cons_append, List.cons.injEq]
      constructor
      · rintro ⟨rfl, rest, rfl⟩
        exact ⟨rest, rfl, rfl⟩
      · rintro ⟨rest, rfl, rfl⟩
        exact ⟨rfl, rest, rfl⟩

/-- `containsSub` (Python `x in y`) detects exactly the substring
decompositions `hay = pre ++ nd ++ post`. -/
theorem containsSub_iff (hay nd : List Char) :
    containsSub hay nd = true ↔ ∃ pre post, hay = pre ++ nd ++ post := by
  induction hay with
  | nil =>
    simp only [containsSub, Bool.or_false, startsWithL_iff]
    constructor
    · rintro ⟨rest, h⟩
      exact ⟨[], rest, by simpa using h⟩
    · rintro ⟨pre, post, h⟩
      have h3 : pre = [] ∧ nd = [] ∧ post = [] := by simpa using h.symm
      rcases h3 with ⟨rfl, rfl, rfl⟩
      exact ⟨[], rfl⟩
  | cons c rest ih =>
    show (startsWithL (c :: rest) nd || containsSub rest nd) = true ↔ _
    simp only [Bool.or_eq_true, startsWithL_iff, ih]
    constructor
    · rintro (⟨r, hr⟩ | ⟨pre, post, rfl⟩)
      · exact ⟨[], r, by simp [hr]⟩
      · exact ⟨c :: pre, post, by simp⟩
    · rintro ⟨pre, post, h⟩
      cases pre with
      | nil => exact Or.inl ⟨post, by simpa using h⟩
      | cons d pre =>
        rcases List.cons.injEq .. ▸ h with ⟨rfl, h2⟩
        exact Or.inr ⟨pre, post, by simpa using h2⟩

/-- The port-scan loop is `List.find?` of the case-insensitive substring
test. -/
theorem findPortLoop_eq_find (hint : List Char) (ports : List (List Char)) :
    findPortLoop hint ports =
      ports.find? (fun p => containsSub (lowerL p) (lowerL hint)) := by
  induction ports with
  | nil => rfl
  | cons p rest ih =>
    simp only [findPortLoop, List.find?]
    cases h : containsSub (lowerL p) (lowerL hint) <;> simp [h, ih]

/-- C3: port location is a case-insensitive substring match of the hint
against each port name — the containment test holds exactly when the
lowercased port splits around the lowercased hint, the result is the first
matching name in enumeration order (`List.find?`), and on no match the
error carries the full list of available port names. -/
theorem C3_port_location (hint : List Char) (ports : List (List Char)) :
    (∀ hay nd : List Char,
        containsSub hay nd = true ↔ ∃ pre post, hay = pre ++ nd ++ post) ∧
    find_midi_port hint ports =
      (match ports.find? (fun p => containsSub (lowerL p) (lowerL hint)) with
       | some p => Except.ok p
       | none => Except.error ports) := by
  refine ⟨containsSub_iff, ?_⟩
  unfold find_midi_port
  rw [findPortLoop_eq_find]

/-- If some configured bus name is absent from the sink table, the
resolution loop of `main` fails with a missing name. -/
theorem buildBusIds_error (sinks : List (List Char × Nat))
    (l : List (Nat × List Char))
    (h : ∃ p ∈ l, dictLookup sinks p.2 = none) :
    ∃ bus, buildBusIds sinks l = Except.error bus ∧
      dictLookup sinks bus = none := by
  induction l with
  | nil => rcases h with ⟨p, hp, _⟩; cases hp
  | cons q rest ih =>
    rcases h with ⟨p, hp, hnone⟩
    obtain ⟨cc, bus⟩ := q
    simp only [buildBusIds]
    cases hq : dictLookup sinks bus with
    | none => exact ⟨bus, rfl, hq⟩
    | some i =>
      rcases List.mem_cons.mp hp with rfl | hmem
      · rw [hnone] at hq; cases hq
      · obtain ⟨b, hb, hbn⟩ := ih ⟨p, hmem, hnone⟩
        rw [hb]
        exact ⟨b, rfl, hbn⟩

/-- C4: when a configured controller→name entry has no match in the scraped
sink table, setup ends in `sys.exit(1)` carrying the diagnostic list of
known sink names (`list(sinks.keys())[:12]`) — and it does so for every
possible MIDI port list, i.e. before any port is located or opened. -/
theorem C4_fail_fast (txt : List Char) (ports : List (List Char))
    (h : ∃ p ∈ CC_TO_BUS, dictLookup (get_sink_ids_by_description txt) p.2 = none) :
    ∃ missing, mainSetup txt ports =
      SetupResult.sinkFail missing
        (((get_sink_ids_by_description txt).map Prod.fst).take 12) := by
  obtain ⟨b, hb, _⟩ := buildBusIds_error _ _ h
  refine ⟨b, ?_⟩
  simp only [mainSetup]
  rw [hb]

/-- Witness for C4: an empty status text resolves no sinks. -/
theorem C4_witness :
    (∃ p ∈ CC_TO_BUS, dictLookup (get_sink_ids_by_description []) p.2 = none) ∧
    ∃ missing, mainSetup [] [] = SetupResult.sinkFail missing
      (((get_sink_ids_by_description []).map Prod.fst).take 12) :=
  ⟨⟨(1, "VM-GAME".data), by decide⟩, C4_fail_fast [] [] ⟨(1, "VM-GAME".data), by decide⟩⟩

/-- `splitlinesAux` always yields at least one (possibly empty) line. -/
theorem splitlinesAux_ne_nil (s acc : List Char) : splitlinesAux s acc ≠ [] := by
  induction s, acc using splitlinesAux.induct <;>
    simp only [splitlinesAux] <;> (try split) <;> simp [*]

/-- Splitting text that starts with a full `Sources:` line yields that line
followed by the lines of the rest. -/
theorem splitlines_sources_cons (s : List Char) :
    splitlines ("Sources:".data ++ '\n' :: s) = "Sources:".data :: splitlines s := by
  have haux : splitlinesAux ("Sources:".data ++ '\n' :: s) [] =
      "Sources:".data :: splitlinesAux s [] := rfl
  simp only [splitlines, haux]
  cases hr : splitlinesAux s [] with
  | nil => exact absurd hr (splitlinesAux_ne_nil s [])
  | cons a t =>
    rw [List.getLast?_cons_cons]
    split
    · rfl
    · rfl

/-- While the sinks section has never been entered, the scan writes
nothing: without a `Sinks:` header every line is skipped. -/
theorem sinkScan_no_header (lines : List (List Char))
    (out : List (List Char × Nat))
    (h : ∀ line ∈ lines, startsWithL (stripL line) "Sinks:".data = false) :
    sinkScan lines false out = out := by
  induction lines with
  | nil => rfl
  | cons line rest ih =>
    have h0 := h line (by simp)
    simp only [sinkScan, h0, Bool.false_eq_true, if_false, Bool.false_and,
      Bool.not_false, if_true]
    exact ih (fun l hl => h l (by simp [hl]))

/-- C9: on a status text with no line whose stripped content starts with
`Sinks:`, the resolver returns the empty mapping (it does not fail); and a
`Sources:` line in front of the text — before any `Sinks:` header — neither
stops the scan nor contributes anything, because the section-exit test only
fires once the section has been entered. -/
theorem C9_no_sinks_header (txt : List Char)
    (h : ∀ line ∈ splitlines txt, startsWithL (stripL line) "Sinks:".data = false) :
    get_sink_ids_by_description txt = [] ∧
    get_sink_ids_by_description ("Sources:".data ++ '\n' :: txt) =
      get_sink_ids_by_description txt := by
  constructor
  · exact sinkScan_no_header _ _ h
  · unfold get_sink_ids_by_description
    rw [splitlines_sources_cons]
    rfl

/-- Witness for C9: a text whose `Sources:` line precedes a matching sink
line, with no `Sinks:` header anywhere. -/
theorem C9_witness :
    (∀ line ∈ splitlines ("Sources:\n   55. X [vol: 1.00]\n").data,
        startsWithL (stripL line) "Sinks:".data = false) ∧
    (get_sink_ids_by_description ("Sources:\n   55. X [vol: 1.00]\n").data = [] ∧
     get_sink_ids_by_description
         ("Sources:".data ++ '\n' :: ("Sources:\n   55. X [vol: 1.00]\n").data) =
       get_sink_ids_by_description ("Sources:\n   55. X [vol: 1.00]\n").data) :=
  ⟨by decide, C9_no_sinks_header _ (by decide)⟩

/-- The list of `(name, id)` pairs the scan matches, in line order — the
same section logic as `sinkScan`, but collecting every match instead of
writing a dict.  Against this list the dict's overwrite behaviour is
stated. -/
def sinkEntries : List (List Char) → Bool → List (List Char × Nat)
  | [], _ => []
  | line :: rest, sinks_section =>
    if startsWithL (stripL line) "Sinks:".data then sinkEntries rest true
    else if sinks_section && startsWithL (stripL line) "Sources:".data then []
    else if !sinks_section then sinkEntries rest sinks_section
    else
      match line_re_match line with
      | none => sinkEntries rest sinks_section
      | some (sink_id, name) =>
        (stripL name, sink_id) :: sinkEntries rest sinks_section

/-- Looking up a different key is unaffected by the overwrite map. -/
theorem dictLookup_map_ne (d : List (List Char × Nat)) (k k' : List Char)
    (v : Nat) (h : k ≠ k') :
    dictLookup (d.map (fun p => if p.1 == k then (k, v) else p)) k' =
      dictLookup d k' := by
  induction d with
  | nil => rfl
  | cons p rest ih =>
    simp only [List.map_cons, dictLookup, beq_iff_eq] at ih ⊢
    by_cases hp : p.1 = k
    · simp [hp, h, ih]
    · by_cases hp' : p.1 = k'
      · simp [hp, hp', Ne.symm h]
      · simp [hp, hp', ih]

/-- Looking up the overwritten key finds the new value when the key occurs. -/
theorem dictLookup_map_eq (d : List (List Char × Nat)) (k : List Char) (v : Nat) :
    dictLookup (d.map (fun p => if p.1 == k then (k, v) else p)) k =
      if d.any (fun p => p.1 == k) then some v else none := by
  induction d with
  | nil => rfl
  | cons p rest ih =>
    simp only [List.map_cons, dictLookup, List.any_cons, beq_iff_eq] at ih ⊢
    by_cases hp : p.1 = k
    · simp [hp]
    · simp [hp, ih]
      rw [beq_eq_false_iff_ne.mpr hp, Bool.false_or]

/-- A key that occurs nowhere looks up to `none`. -/
theorem dictLookup_not_mem (d : List (List Char × Nat)) (k : List Char)
    (h : d.any (fun p => p.1 == k) = false) : dictLookup d k = none := by
  induction d with
  | nil => rfl
  | cons p rest ih =>
    simp only [List.any_cons, Bool.or_eq_false_iff] at h
    simp only [dictLookup, h.1, Bool.false_eq_true, if_false]
    exact ih h.2

/-- Lookup over a concatenation tries the left dict first. -/
theorem dictLookup_append (d1 d2 : List (List Char × Nat)) (k : List Char) :
    dictLookup (d1 ++ d2) k =
      match dictLookup d1 k with
      | some v => some v
      | none => dictLookup d2 k := by
  induction d1 with
  | nil => rfl
  | cons p rest ih =>
    simp only [List.cons_append, dictLookup]
    cases hp : p.1 == k
    · simp only [Bool.false_eq_true, if_false]; exact ih
    · simp

/-- Python dict assignment then lookup: the assigned key reads back the new
value, every other key is untouched. -/
theorem dictLookup_dictInsert (d : List (List Char × Nat)) (k k' : List Char)
    (v : Nat) :
    dictLookup (dictInsert d k v) k' =
      if k = k' then some v else dictLookup d k' := by
  unfold dictInsert
  cases hmem : d.any (fun p => p.1 == k)
  · simp only [Bool.false_eq_true, if_false, dictLookup_append]
    by_cases hk : k = k'
    · subst hk
      rw [dictLookup_not_mem d k hmem]
      simp [dictLookup]
    · rw [if_neg hk]
      cases hl : dictLookup d k'
      · simp only [dictLookup, show ((k == k') = false) from beq_eq_false_iff_ne.mpr hk]
        rfl
      · rfl
  · simp only [if_true]
    by_cases hk : k = k'
    · subst hk
      rw [dictLookup_map_eq, hmem, if_pos rfl, if_pos rfl]
    · rw [dictLookup_map_ne d k k' v hk, if_neg hk]

/-- The scan's dict, looked up at any name, returns the id of the last
matched entry carrying that name — entries matched later overwrite earlier
ones with the same name. -/
theorem sinkScan_lookup (lines : List (List Char)) (sec : Bool)
    (d : List (List Char × Nat)) (name : List Char) :
    dictLookup (sinkScan lines sec d) name =
      match (sinkEntries lines sec).reverse.find? (fun e => e.1 == name) with
      | some e => some e.2
      | none => dictLookup d name := by
  induction lines generalizing sec d with
  | nil => rfl
  | cons line rest ih =>
    by_cases h1 : startsWithL (stripL line) "Sinks:".data = true
    · simp only [sinkScan, sinkEntries, if_pos h1]
      exact ih true d
    · cases sec with
      | false =>
        simp only [sinkScan, sinkEntries, if_neg h1, Bool.false_and,
          Bool.false_eq_true, if_false, Bool.not_false, if_true]
        exact ih false d
      | true =>
        by_cases h2 : startsWithL (stripL line) "Sources:".data = true
        · simp only [sinkScan, sinkEntries, if_neg h1, Bool.true_and, if_pos h2]
          rfl
        · simp only [sinkScan, sinkEntries, if_neg h1, Bool.true_and, if_neg h2,
            Bool.not_true, Bool.false_eq_true, if_false]
          cases hm : line_re_match line with
          | none => exact ih true d
          | some pr =>
            obtain ⟨i, nm⟩ := pr
            show dictLookup (sinkScan rest true (dictInsert d (stripL nm) i)) name =
              match ((stripL nm, i) :: sinkEntries rest true).reverse.find?
                  (fun e => e.1 == name) with
              | some e => some e.2
              | none => dictLookup d name
            rw [ih true (dictInsert d (stripL nm) i)]
            rw [List.reverse_cons, List.find?_append]
            cases hf : (sinkEntries rest true).reverse.find? (fun e => e.1 == name) with
            | some e => rfl
            | none =>
              simp only [Option.none_or]
              rw [dictLookup_dictInsert]
              by_cases hn : stripL nm = name
              · rw [if_pos hn]
                simp [List.find?, hn]
              · rw [if_neg hn]
                simp [List.find?, beq_eq_false_iff_ne.mpr hn]

/-- A status text whose sinks section matches the name `VM-GAME` twice,
first with id `97`, then with id `105`. -/
def dupStatus : List Char :=
  ("Sinks:\n   97. VM-GAME [vol: 1.00]\n  105. VM-GAME [vol: 0.50]\n").data

/-- C7: for every status text and every name, the resolver's mapping
assigns the name the identifier of the last matching line in the sinks
section that mentions it (the later write overwrites the earlier one); on
a concrete text carrying `VM-GAME` with id `97` and then id `105`, the
result maps `VM-GAME` to `105`. -/
theorem C7_last_seen_wins (txt name : List Char) :
    dictLookup (get_sink_ids_by_description txt) name =
      ((sinkEntries (splitlines txt) false).reverse.find?
          (fun e => e.1 == name)).map Prod.snd ∧
    get_sink_ids_by_description dupStatus = [("VM-GAME".data, 105)] := by
  constructor
  · unfold get_sink_ids_by_description
    rw [sinkScan_lookup]
    cases hf : (sinkEntries (splitlines txt) false).reverse.find?
        (fun e => e.1 == name) with
    | some e => rfl
    | none => rfl
  · decide
